import Mathlib

/-!
Shallow embedding of the notes-marketplace backend (`src/app.py`).

The persistent store (SQLite tables `Users`, `Notes`, `Transactions`) is
modelled as lists of rows; `rowid`-style autoincrement ids are modelled as
`length + 1` (rows are never deleted by any endpoint).  Each Flask endpoint
becomes a pure function from its request data and the store to the new store
together with the HTTP status code and JSON payload it returns.  Request
bodies and forms are untyped maps in the source, so each expected field is
modelled as an `Option` (absent key = `none`).  Numeric ids travel as
numbers; form/JSON string values stay `String` (in particular `price` is the
form string, passed through unchanged to `Notes.price` and on to
`Transactions.amount`, exactly as in the source, which never converts it).

External library helpers (`werkzeug.security.generate_password_hash` /
`check_password_hash`, `werkzeug.utils.secure_filename`, `os.path.basename`)
are modelled as computable functions reproducing their documented shape:
the password hash is a method-prefixed, salted digest string whose digest
part is an abstract (hex-encoding) digest of salt ++ password, and
verification re-derives the digest from the salt stored in the hash string.
-/

namespace NotesApp

/-- Row of the `Users` table. -/
structure User where
  user_id : Nat
  name : String
  email : String
  password : String
  role : String
deriving DecidableEq

/-- Row of the `Notes` table. -/
structure Note where
  note_id : Nat
  title : String
  subject : String
  description : String
  price : String
  seller_id : Nat
  file_link : String
  status : String
deriving DecidableEq

/-- Row of the `Transactions` table. -/
structure Txn where
  buyer_id : Nat
  note_id : Nat
  amount : String
deriving DecidableEq

/-- The persistent store: the three tables of `database.db`. -/
structure DB where
  users : List User
  notes : List Note
  txns : List Txn
deriving DecidableEq

/-- The empty store (fresh database). -/
def DB.empty : DB := ⟨[], [], []⟩

/-- Hex digit for a value below 16 (lower-case, as Python hexdigests are). -/
def hexChar (n : Nat) : Char :=
  if n < 10 then Char.ofNat (48 + n) else Char.ofNat (87 + n)

/-- Two-hex-digit encoding of each character code, modelling an opaque
message digest as a char-level hex dump; only its shape (hex alphabet,
fixed expansion, determined by salt ++ password) matters to the proofs. -/
def hexBytes (l : List Char) : List Char :=
  l.flatMap fun c => [hexChar (c.toNat / 16 % 16), hexChar (c.toNat % 16)]

/-- Model of `werkzeug.security.generate_password_hash(password,
method='pbkdf2:sha256')`: a string `method$salt$digest`.  The salt is made
explicit (the Python library draws it randomly per call), and the digest is
the abstract digest of salt ++ password. -/
def generate_password_hash (salt password : String) : String :=
  "pbkdf2:sha256:600000$" ++ salt ++ "$" ++ String.mk (hexBytes (salt.data ++ password.data))

/-- Splits a character list at `$` separators (used to parse the stored
`method$salt$digest` string when verifying a password). -/
def splitDollar : List Char → List Char → List (List Char)
  | [], acc => [acc.reverse]
  | c :: rest, acc =>
    if c = '$' then acc.reverse :: splitDollar rest []
    else splitDollar rest (c :: acc)

/-- Model of `werkzeug.security.check_password_hash(stored, candidate)`:
parse the stored `method$salt$digest`, recompute the digest of
salt ++ candidate and compare. -/
def check_password_hash (stored candidate : String) : Bool :=
  match splitDollar stored.data [] with
  | [m, salt, digest] =>
    m = "pbkdf2:sha256:600000".data && digest = hexBytes (salt ++ candidate.data)
  | _ => false

/-- Model of `werkzeug.utils.secure_filename`: keeps only filename-safe
ASCII characters (in particular it strips path separators). -/
def secure_filename (fn : String) : String :=
  String.mk (fn.data.filter fun c => c.isAlphanum || c = '.' || c = '_' || c = '-')

/-- Model of `os.path.basename`: the component after the last `/`. -/
def basename (p : String) : String :=
  String.mk ((p.data.reverse.takeWhile fun c => c ≠ '/').reverse)

/-- JSON body of `POST /register`; each expected key is optional because the
handler probes an untyped dict for the keys. -/
structure RegisterData where
  name : Option String
  email : Option String
  password : Option String
  role : Option String
deriving DecidableEq

/-- Endpoint `register` (`POST /register`, app.py lines 45-60).  Returns the
new store, the HTTP status and the JSON message. -/
def register (salt : String) (d : RegisterData) (db : DB) : DB × Nat × String :=
  match d.name, d.email, d.password, d.role with
  | some name, some email, some password, some role =>
    match db.users.find? (fun u => u.email == email) with
    | some _ => (db, 409, "Email already registered!")
    | none =>
      ({ db with users := db.users ++
          [⟨db.users.length + 1, name, email, generate_password_hash salt password, role⟩] },
        201, "New user created successfully!")
  | _, _, _, _ => (db, 400, "Missing required fields!")

/-- Public projection of a user returned by a successful login (no password
hash field exists in this view). -/
structure UserView where
  user_id : Nat
  name : String
  email : String
  role : String
deriving DecidableEq

/-- JSON body of `POST /login`. -/
structure LoginData where
  email : Option String
  password : Option String
deriving DecidableEq

/-- Endpoint `login` (`POST /login`, app.py lines 62-76).  Returns the HTTP
status, the JSON message and the public user view on success (the store is
never modified). -/
def login (d : LoginData) (db : DB) : Nat × String × Option UserView :=
  match d.email, d.password with
  | some email, some password =>
    match db.users.find? (fun u => u.email == email) with
    | none => (401, "Login failed! Check email and password.", none)
    | some u =>
      if check_password_hash u.password password then
        (200, "Login successful!", some ⟨u.user_id, u.name, u.email, u.role⟩)
      else
        (401, "Login failed! Check email and password.", none)
  | _, _ => (400, "Missing email or password!", none)

/-- Multipart form of `POST /notes`: the four required fields, the optional
description, and the `note_file` file part (`some fn` = a file part with
filename `fn`; the browser sends `fn = ""` when no file was selected). -/
structure UploadForm where
  title : Option String
  subject : Option String
  price : Option String
  seller_id : Option Nat
  description : Option String
  note_file : Option String
deriving DecidableEq

/-- Endpoint `upload_note` (`POST /notes`, app.py lines 80-113).  The final
`if file:` in the source is always truthy once `file.filename == ''` has
been ruled out, so the trailing `File error occurred!` branch is dead. -/
def upload_note (f : UploadForm) (db : DB) : DB × Nat × String :=
  match f.title, f.subject, f.price, f.seller_id with
  | some title, some subject, some price, some seller_id =>
    match f.note_file with
    | none => (db, 400, "No file part in the request!")
    | some fn =>
      if fn = "" then (db, 400, "No selected file!")
      else
        let description := f.description.getD ""
        match db.users.find? (fun u => u.user_id == seller_id && u.role == "seller") with
        | none => (db, 404, "Seller not found or user is not a seller!")
        | some _ =>
          let file_path := "uploads/" ++ secure_filename fn
          ({ db with notes := db.notes ++
              [⟨db.notes.length + 1, title, subject, description, price, seller_id,
                file_path, "pending"⟩] },
            201, "Note uploaded successfully and is pending admin approval.")
  | _, _, _, _ => (db, 400, "Missing required form fields!")

/-- Public projection of a note as returned by `browse_notes`
(`SELECT note_id, title, subject, description, price, seller_id`); there is
no `file_link` or `status` field in this view. -/
structure PublicNote where
  note_id : Nat
  title : String
  subject : String
  description : String
  price : String
  seller_id : Nat
deriving DecidableEq

/-- The projection applied by the browse query to each selected row. -/
def publicView (n : Note) : PublicNote :=
  ⟨n.note_id, n.title, n.subject, n.description, n.price, n.seller_id⟩

/-- Endpoint `browse_notes` (`GET /notes`, app.py lines 115-119): all notes
with status `approved`, projected to the public fields.  Always 200. -/
def browse_notes (db : DB) : List PublicNote :=
  (db.notes.filter fun n => n.status == "approved").map publicView

/-- JSON body of `POST /purchase`. -/
structure PurchaseData where
  buyer_id : Option Nat
  note_id : Option Nat
deriving DecidableEq

/-- Endpoint `purchase_note` (`POST /purchase`, app.py lines 121-137).
Returns the new store, the HTTP status, the JSON message and the download
link on success. -/
def purchase_note (d : PurchaseData) (db : DB) : DB × Nat × String × Option String :=
  match d.buyer_id, d.note_id with
  | some buyer_id, some note_id =>
    match db.notes.find? (fun n => n.note_id == note_id && n.status == "approved") with
    | none => (db, 404, "Note not found or not available for purchase!", none)
    | some note =>
      ({ db with txns := db.txns ++ [⟨buyer_id, note_id, note.price⟩] },
        200, "Purchase successful!", some ("/uploads/" ++ basename note.file_link))
  | _, _ => (db, 400, "Buyer ID and Note ID are required!", none)

/-- Projection used by `get_pending_notes`
(`SELECT note_id, title, subject, seller_id`). -/
structure PendingView where
  note_id : Nat
  title : String
  subject : String
  seller_id : Nat
deriving DecidableEq

/-- Endpoint `get_pending_notes` (`GET /admin/notes/pending`, app.py lines
147-150). -/
def get_pending_notes (db : DB) : List PendingView :=
  (db.notes.filter fun n => n.status == "pending").map
    fun n => ⟨n.note_id, n.title, n.subject, n.seller_id⟩

/-- Endpoint `approve_note` (`PUT /admin/notes/<note_id>/approve`, app.py
lines 152-155): `UPDATE Notes SET status = 'approved' WHERE note_id = ?`,
then an unconditional 200 with an acknowledgement message. -/
def approve_note (note_id : Nat) (db : DB) : DB × Nat × String :=
  ({ db with notes := db.notes.map fun n =>
      if n.note_id = note_id then { n with status := "approved" } else n },
    200, "Note " ++ toString note_id ++ " has been approved.")

/-- Endpoint `reject_note` (`PUT /admin/notes/<note_id>/reject`, app.py
lines 157-160). -/
def reject_note (note_id : Nat) (db : DB) : DB × Nat × String :=
  ({ db with notes := db.notes.map fun n =>
      if n.note_id = note_id then { n with status := "rejected" } else n },
    200, "Note " ++ toString note_id ++ " has been rejected.")

/-- One client request, for reasoning about reachable sequences of
operations (browse and the pending listing are read-only and need not
appear as steps). -/
inductive Op where
  | reg (salt : String) (d : RegisterData)
  | upload (f : UploadForm)
  | approve (id : Nat)
  | reject (id : Nat)
  | buy (d : PurchaseData)
deriving DecidableEq

/-- Effect of one request on the store. -/
def step (db : DB) : Op → DB
  | .reg salt d => (register salt d db).1
  | .upload f => (upload_note f db).1
  | .approve i => (approve_note i db).1
  | .reject i => (reject_note i db).1
  | .buy d => (purchase_note d db).1

/-- Effect of a sequence of requests on the store. -/
def run (db : DB) : List Op → DB
  | [] => db
  | op :: rest => run (step db op) rest

/-- n repeated calls of `purchase_note` with the same request body,
threading the store through. -/
def iteratePurchase (d : PurchaseData) : Nat → DB → DB
  | 0, db => db
  | n + 1, db => iteratePurchase d n (purchase_note d db).1

/-- No note row carrying id `i` is currently in status `approved`. -/
def neverApproved (i : Nat) (db : DB) : Prop :=
  ∀ n ∈ db.notes, n.note_id = i → n.status ≠ "approved"

/-- Sample approved note used to instantiate the purchase theorems. -/
def noteA : Note := ⟨1, "Calc Notes", "Math", "", "5", 1, "uploads/f.pdf", "approved"⟩

/-- Store holding exactly the one approved note `noteA` and no users. -/
def dbA : DB := ⟨[], [noteA], []⟩

/-- Sample rejected note used to instantiate the moderation theorems. -/
def noteR : Note := ⟨1, "Calc Notes", "Math", "", "5", 1, "uploads/f.pdf", "rejected"⟩

/-- Store holding exactly the one rejected note `noteR`. -/
def dbR : DB := ⟨[], [noteR], []⟩

/-- Sample registered user (a buyer) used to instantiate the account
theorems; the stored password is the hash of "pw" under salt "ab". -/
def userB : User := ⟨1, "Alice", "a@x.com", generate_password_hash "ab" "pw", "buyer"⟩

/-- Store holding exactly the one user `userB`. -/
def dbU : DB := ⟨[userB], [], []⟩

/-- Sample registered seller used to instantiate the upload theorems. -/
def userS : User := ⟨1, "Alice", "a@x.com", generate_password_hash "ab" "pw", "seller"⟩

/-- Store holding exactly the one seller `userS`. -/
def dbS : DB := ⟨[userS], [], []⟩

/-- Registration request of a seller account, for concrete scenarios. -/
def opRegSeller : Op := Op.reg "s" ⟨some "Alice", some "a@x.com", some "pw", some "seller"⟩

/-- Upload request of a first note by seller 1, for concrete scenarios. -/
def opUpNote1 : Op :=
  Op.upload ⟨some "Calc Notes", some "Math", some "5", some 1, none, some "f.pdf"⟩

/-- Upload request of a second note by seller 1, for concrete scenarios. -/
def opUpNote2 : Op :=
  Op.upload ⟨some "Algebra Notes", some "Math", some "7", some 1, none, some "g.pdf"⟩

/-- Scenario: a seller registers, uploads two notes, and only the second
note is approved. -/
def opsTwoNotes : List Op := [opRegSeller, opUpNote1, opUpNote2, Op.approve 2]

/- ------------------------------------------------------------------ -/
/- Helper lemmas -/
/- ------------------------------------------------------------------ -/

lemma map_eq_self {α : Type} (l : List α) (f : α → α) (h : ∀ a ∈ l, f a = a) :
    l.map f = l := by
  induction l with
  | nil => rfl
  | cons a t ih =>
    simp only [List.map_cons]
    rw [h a (by simp), ih fun x hx => h x (by simp [hx])]

lemma forall₂_map_self {α : Type} {R : α → α → Prop} (f : α → α) (l : List α)
    (h : ∀ a ∈ l, R a (f a)) : List.Forall₂ R l (l.map f) := by
  induction l with
  | nil => exact List.Forall₂.nil
  | cons a t ih =>
    exact List.Forall₂.cons (h a (by simp)) (ih fun x hx => h x (by simp [hx]))

lemma register_fst_notes (salt : String) (d : RegisterData) (db : DB) :
    (register salt d db).1.notes = db.notes := by
  unfold register
  repeat' split
  all_goals rfl

lemma purchase_fst_notes (d : PurchaseData) (db : DB) :
    (purchase_note d db).1.notes = db.notes := by
  unfold purchase_note
  repeat' split
  all_goals rfl

lemma purchase_fst_users (d : PurchaseData) (db : DB) :
    (purchase_note d db).1.users = db.users := by
  unfold purchase_note
  repeat' split
  all_goals rfl

lemma upload_fst_notes_mem (f : UploadForm) (db : DB) :
    ∀ n ∈ (upload_note f db).1.notes, n ∈ db.notes ∨ n.status = "pending" := by
  unfold upload_note
  repeat' split
  all_goals intro n hn
  all_goals simp only [List.mem_append, List.mem_singleton] at hn
  all_goals try exact Or.inl hn
  all_goals rcases hn with hn | hn
  all_goals try exact Or.inl hn
  all_goals subst hn
  all_goals exact Or.inr rfl

/-- C3: `approve_note` and `reject_note` return 200 unconditionally: every
note row carrying the given id ends up `approved` (resp. `rejected`)
whatever its previous status was, and when no row carries the id the whole
store is unchanged and the call still succeeds. -/
theorem C3_admin_unconditional (i : Nat) (db : DB) :
    (approve_note i db).2.1 = 200 ∧ (reject_note i db).2.1 = 200 ∧
    ((∀ n ∈ db.notes, n.note_id ≠ i) →
      (approve_note i db).1 = db ∧ (reject_note i db).1 = db) ∧
    (∀ n' ∈ (approve_note i db).1.notes, n'.note_id = i → n'.status = "approved") ∧
    (∀ n' ∈ (reject_note i db).1.notes, n'.note_id = i → n'.status = "rejected") ∧
    (∀ n ∈ db.notes, n.note_id = i →
      (∃ n' ∈ (approve_note i db).1.notes, n'.note_id = i ∧ n'.status = "approved") ∧
      (∃ n' ∈ (reject_note i db).1.notes, n'.note_id = i ∧ n'.status = "rejected")) := by
  refine ⟨rfl, rfl, ?_, ?_, ?_, ?_⟩
  · intro h
    constructor
    · show { db with notes := _ } = db
      rw [map_eq_self db.notes _ fun a ha => by simp [h a ha]]
    · show { db with notes := _ } = db
      rw [map_eq_self db.notes _ fun a ha => by simp [h a ha]]
  · intro n' hn' hid
    simp only [approve_note, List.mem_map] at hn'
    obtain ⟨n, _, rfl⟩ := hn'
    by_cases h : n.note_id = i <;> simp_all
  · intro n' hn' hid
    simp only [reject_note, List.mem_map] at hn'
    obtain ⟨n, _, rfl⟩ := hn'
    by_cases h : n.note_id = i <;> simp_all
  · intro n hn hid
    constructor
    · refine ⟨{ n with status := "approved" }, ?_, hid, rfl⟩
      simp only [approve_note, List.mem_map]
      exact ⟨n, hn, by simp [hid]⟩
    · refine ⟨{ n with status := "rejected" }, ?_, hid, rfl⟩
      simp only [reject_note, List.mem_map]
      exact ⟨n, hn, by simp [hid]⟩

/-- Witness for C3: on the store holding the single rejected note `noteR`
(id 1), approving the absent id 5 changes nothing, and approving id 1 turns
the rejected note into an approved one. -/
theorem C3_admin_unconditional_witness :
    (approve_note 5 dbR).1 = dbR ∧
    (∃ n' ∈ (approve_note 1 dbR).1.notes, n'.note_id = 1 ∧ n'.status = "approved") :=
  ⟨((C3_admin_unconditional 5 dbR).2.2.1 (by decide)).1,
   ((C3_admin_unconditional 1 dbR).2.2.2.2.2 noteR (by decide) (by decide)).1⟩

/-- C9: `approve_note` and `reject_note` touch at most the `status` field of
the note rows carrying the given id: users and transactions are untouched,
the note list keeps its length and order, and every field of every note row
other than the status of the targeted id is preserved. -/
theorem C9_moderation_frame (i : Nat) (db : DB) :
    (approve_note i db).1.users = db.users ∧ (approve_note i db).1.txns = db.txns ∧
    (reject_note i db).1.users = db.users ∧ (reject_note i db).1.txns = db.txns ∧
    List.Forall₂ (fun n n' =>
        n'.note_id = n.note_id ∧ n'.title = n.title ∧ n'.subject = n.subject ∧
        n'.description = n.description ∧ n'.price = n.price ∧
        n'.seller_id = n.seller_id ∧ n'.file_link = n.file_link ∧
        (n.note_id ≠ i → n'.status = n.status))
      db.notes (approve_note i db).1.notes ∧
    List.Forall₂ (fun n n' =>
        n'.note_id = n.note_id ∧ n'.title = n.title ∧ n'.subject = n.subject ∧
        n'.description = n.description ∧ n'.price = n.price ∧
        n'.seller_id = n.seller_id ∧ n'.file_link = n.file_link ∧
        (n.note_id ≠ i → n'.status = n.status))
      db.notes (reject_note i db).1.notes := by
  refine ⟨rfl, rfl, rfl, rfl, ?_, ?_⟩
  · exact forall₂_map_self _ db.notes fun a _ => by
      by_cases h : a.note_id = i <;> simp [h]
  · exact forall₂_map_self _ db.notes fun a _ => by
      by_cases h : a.note_id = i <;> simp [h]

/-- Witness for C9 at the one-note store `dbR` with the absent id 5. -/
theorem C9_moderation_frame_witness :
    (approve_note 5 dbR).1.users = dbR.users ∧ (approve_note 5 dbR).1.txns = dbR.txns ∧
    List.Forall₂ (fun n n' =>
        n'.note_id = n.note_id ∧ n'.title = n.title ∧ n'.subject = n.subject ∧
        n'.description = n.description ∧ n'.price = n.price ∧
        n'.seller_id = n.seller_id ∧ n'.file_link = n.file_link ∧
        (n.note_id ≠ 5 → n'.status = n.status))
      dbR.notes (approve_note 5 dbR).1.notes :=
  ⟨(C9_moderation_frame 5 dbR).1, (C9_moderation_frame 5 dbR).2.1,
   (C9_moderation_frame 5 dbR).2.2.2.2.1⟩

/-- C4: `browse_notes` returns exactly the notes whose status is
`approved`, each projected by `publicView` to the six public fields (the
`PublicNote` view has no `file_link` and no `status` field), and its output
is unchanged under any rewriting of the stored file paths. -/
theorem C4_browse_approved_only (db : DB) :
    (∀ p ∈ browse_notes db, ∃ n ∈ db.notes, n.status = "approved" ∧ p = publicView n) ∧
    (∀ n ∈ db.notes, n.status = "approved" → publicView n ∈ browse_notes db) ∧
    (∀ f : Note → String,
      browse_notes { db with notes := db.notes.map fun n => { n with file_link := f n } } =
        browse_notes db) := by
  refine ⟨?_, ?_, ?_⟩
  · intro p hp
    simp only [browse_notes, List.mem_map, List.mem_filter, beq_iff_eq] at hp
    obtain ⟨n, ⟨hn, hs⟩, rfl⟩ := hp
    exact ⟨n, hn, hs, rfl⟩
  · intro n hn hs
    simp only [browse_notes, List.mem_map, List.mem_filter, beq_iff_eq]
    exact ⟨n, ⟨hn, hs⟩, rfl⟩
  · intro f
    simp only [browse_notes, List.filter_map, List.map_map]
    rfl

/-- Witness for C4: on the one-note store `dbA`, the approved note `noteA`
appears in the browse output through the public projection. -/
theorem C4_browse_approved_only_witness :
    publicView noteA ∈ browse_notes dbA :=
  (C4_browse_approved_only dbA).2.1 noteA (by decide) (by decide)

lemma step_neverApproved (i : Nat) (db : DB) (op : Op)
    (h : neverApproved i db) (hop : op ≠ Op.approve i) :
    neverApproved i (step db op) := by
  cases op with
  | reg salt d =>
    intro n hn hid
    simp only [step] at hn
    rw [register_fst_notes] at hn
    exact h n hn hid
  | upload f =>
    intro n hn hid
    simp only [step] at hn
    rcases upload_fst_notes_mem f db n hn with hmem | hpend
    · exact h n hmem hid
    · rw [hpend]; decide
  | approve j =>
    have hij : j ≠ i := fun hji => hop (by rw [hji])
    intro n hn hid
    simp only [step, approve_note, List.mem_map] at hn
    obtain ⟨m, hm, rfl⟩ := hn
    by_cases hmj : m.note_id = j
    · simp only [hmj, if_pos rfl] at hid
      exact absurd (hmj ▸ hid : j = i) hij
    · simp only [if_neg hmj] at hid ⊢
      exact h m hm hid
  | reject j =>
    intro n hn hid
    simp only [step, reject_note, List.mem_map] at hn
    obtain ⟨m, hm, rfl⟩ := hn
    by_cases hmj : m.note_id = j
    · simp [hmj]
    · simp only [if_neg hmj] at hid ⊢
      exact h m hm hid
  | buy d =>
    intro n hn hid
    simp only [step] at hn
    rw [purchase_fst_notes] at hn
    exact h n hn hid

lemma run_neverApproved (i : Nat) (ops : List Op) :
    ∀ db : DB, neverApproved i db → Op.approve i ∉ ops →
      neverApproved i (run db ops) := by
  induction ops with
  | nil => intro db h _; exact h
  | cons op rest ih =>
    intro db h hmem
    simp only [run]
    have h1 : op ≠ Op.approve i := by
      intro he; subst he; exact hmem (List.mem_cons_self _ _)
    exact ih _ (step_neverApproved i db op h h1) fun hr => hmem (List.mem_cons_of_mem _ hr)

lemma browse_avoids_of_neverApproved (i : Nat) (db : DB) (h : neverApproved i db) :
    ∀ p ∈ browse_notes db, p.note_id ≠ i := by
  intro p hp
  simp only [browse_notes, List.mem_map, List.mem_filter, beq_iff_eq] at hp
  obtain ⟨n, ⟨hn, hs⟩, rfl⟩ := hp
  intro hid
  exact h n hn hid hs

/-- C2 (amended): starting from the fresh store, a note id never appears in
a `browse_notes` result until an approve of that id has occurred; and from
any store in which every note row with that id is `rejected`, the id stays
out of every later `browse_notes` result as long as no subsequent approve
of that id is applied.  (The unamended claim drops the last proviso and is
refuted by the reject-then-approve counterexample.) -/
theorem C2_visibility (ops : List Op) (i : Nat) :
    (Op.approve i ∉ ops → ∀ p ∈ browse_notes (run DB.empty ops), p.note_id ≠ i) ∧
    (∀ db : DB, (∀ n ∈ db.notes, n.note_id = i → n.status = "rejected") →
      Op.approve i ∉ ops → ∀ p ∈ browse_notes (run db ops), p.note_id ≠ i) := by
  constructor
  · intro hmem
    refine browse_avoids_of_neverApproved i _ (run_neverApproved i ops DB.empty ?_ hmem)
    intro n hn
    exact absurd hn (List.not_mem_nil n)
  · intro db hrej hmem
    refine browse_avoids_of_neverApproved i _ (run_neverApproved i ops db ?_ hmem)
    intro n hn hid
    rw [hrej n hn hid]
    decide

/-- Witness for C2: in the two-note scenario where only note 2 is approved,
no element of the browse result carries note id 1. -/
theorem C2_visibility_witness :
    (browse_notes (run DB.empty opsTwoNotes)).all (fun p => p.note_id != 1) = true := by
  have h := (C2_visibility opsTwoNotes 1).1 (by decide)
  simp only [List.all_eq_true, bne_iff_ne]
  exact fun p hp => h p hp

/-- Counterexample to C2 as stated: after the seller registers, uploads
note 1 and an admin rejects it, the note row is `rejected`; yet a later
approve of the same id makes note 1 appear in a subsequent `browse_notes`
result, so a rejected note does not stay invisible forever. -/
theorem C2_visibility_counterexample :
    (run DB.empty [opRegSeller, opUpNote1, Op.reject 1]).notes.map Note.status =
      ["rejected"] ∧
    (browse_notes (run (run DB.empty [opRegSeller, opUpNote1, Op.reject 1])
        [Op.approve 1])).map PublicNote.note_id = [1] := by
  constructor
  · decide
  · decide

/-- C1: `purchase_note` returns 400 leaving the store unchanged when either
id is missing; when no note row with the requested id is `approved` it
returns 404 and creates no transaction; when an approved row exists it
returns 200, appends exactly one transaction whose amount is that row's
current price, and returns the download link derived from the row's file
reference. -/
theorem C1_purchase_contract (d : PurchaseData) (db : DB) :
    ((d.buyer_id = none ∨ d.note_id = none) →
      purchase_note d db = (db, 400, "Buyer ID and Note ID are required!", none)) ∧
    (∀ bid nid : Nat, d = ⟨some bid, some nid⟩ →
      ((∀ n ∈ db.notes, n.note_id = nid → n.status ≠ "approved") →
        purchase_note d db = (db, 404, "Note not found or not available for purchase!", none)) ∧
      ((∃ n ∈ db.notes, n.note_id = nid ∧ n.status = "approved") →
        ∃ note, note ∈ db.notes ∧ note.note_id = nid ∧ note.status = "approved" ∧
          purchase_note d db =
            ({ db with txns := db.txns ++ [⟨bid, nid, note.price⟩] },
              200, "Purchase successful!",
              some ("/uploads/" ++ basename note.file_link)))) := by
  constructor
  · intro hmiss
    rcases d with ⟨b, n⟩
    rcases hmiss with h | h <;> simp only at h <;> subst h
    · cases n <;> rfl
    · cases b <;> rfl
  · rintro bid nid rfl
    constructor
    · intro hnone
      have hf : db.notes.find? (fun n => n.note_id == nid && n.status == "approved") = none := by
        rw [List.find?_eq_none]
        intro n hn
        simp only [Bool.and_eq_true, beq_iff_eq]
        exact fun h12 => hnone n hn h12.1 h12.2
      simp [purchase_note, hf]
    · intro hex
      have hne : db.notes.find? (fun n => n.note_id == nid && n.status == "approved") ≠ none := by
        rw [Ne, List.find?_eq_none]
        push_neg
        obtain ⟨n, hn, h1, h2⟩ := hex
        exact ⟨n, hn, by simp [h1, h2]⟩
      obtain ⟨note, hf⟩ := Option.ne_none_iff_exists'.mp hne
      have hmem := List.mem_of_find?_eq_some hf
      have hp := List.find?_some hf
      simp only [Bool.and_eq_true, beq_iff_eq] at hp
      exact ⟨note, hmem, hp.1, hp.2, by simp [purchase_note, hf]⟩

/-- Witness for C1 on the one-approved-note store `dbA`: a successful
purchase of note 1 by buyer 7, a 404 for the absent note id 2, and a 400
when the buyer id is missing. -/
theorem C1_purchase_contract_witness :
    purchase_note ⟨some 7, some 1⟩ dbA =
      ({ dbA with txns := [⟨7, 1, "5"⟩] }, 200, "Purchase successful!",
        some "/uploads/f.pdf") ∧
    purchase_note ⟨some 7, some 2⟩ dbA =
      (dbA, 404, "Note not found or not available for purchase!", none) ∧
    purchase_note ⟨none, some 1⟩ dbA =
      (dbA, 400, "Buyer ID and Note ID are required!", none) := by
  refine ⟨?_, ?_, ?_⟩
  · obtain ⟨note, hmem, hid, hst, heq⟩ :=
      ((C1_purchase_contract ⟨some 7, some 1⟩ dbA).2 7 1 rfl).2
        ⟨noteA, by decide, by decide, by decide⟩
    have hnote : note = noteA := by
      have h : note ∈ [noteA] := hmem
      simpa using h
    rw [hnote] at heq
    rw [heq]
    decide
  · exact ((C1_purchase_contract ⟨some 7, some 2⟩ dbA).2 7 2 rfl).1 (by decide)
  · exact (C1_purchase_contract ⟨none, some 1⟩ dbA).1 (Or.inl rfl)

/-- C10: `purchase_note` never consults the `Users` table: for any buyer id
in the request and any users table whatsoever (no user with that id, or a
user whose role is not buyer), the purchase of an approved note succeeds
and records a transaction carrying the unvalidated buyer id. -/
theorem C10_buyer_unvalidated (db : DB) (bid nid : Nat) (note : Note)
    (hf : db.notes.find? (fun n => n.note_id == nid && n.status == "approved") = some note) :
    ∀ us : List User,
      purchase_note ⟨some bid, some nid⟩ { db with users := us } =
        ({ db with users := us, txns := db.txns ++ [⟨bid, nid, note.price⟩] },
          200, "Purchase successful!", some ("/uploads/" ++ basename note.file_link)) := by
  intro us
  simp [purchase_note, hf]

/-- Witness for C10: buyer id 99 references no user at all (empty users
table), yet purchasing the approved note 1 succeeds and records the
transaction with buyer id 99. -/
theorem C10_buyer_unvalidated_witness :
    purchase_note ⟨some 99, some 1⟩ { dbA with users := [] } =
      ({ dbA with users := [], txns := [⟨99, 1, "5"⟩] },
        200, "Purchase successful!", some "/uploads/f.pdf") := by
  rw [C10_buyer_unvalidated dbA 99 1 noteA (by decide) []]
  decide

/-- C8: purchase is not idempotent: n repeated identical purchase calls of
an approved note append exactly n fresh transaction rows (the previous rows
are preserved in place, never reused or overwritten), while the notes and
users tables are untouched. -/
theorem C8_purchase_not_idempotent (db : DB) (bid nid : Nat) (note : Note)
    (hf : db.notes.find? (fun n => n.note_id == nid && n.status == "approved") = some note) :
    ∀ n : Nat,
      (iteratePurchase ⟨some bid, some nid⟩ n db).txns =
        db.txns ++ List.replicate n ⟨bid, nid, note.price⟩ ∧
      (iteratePurchase ⟨some bid, some nid⟩ n db).txns.length = db.txns.length + n ∧
      (iteratePurchase ⟨some bid, some nid⟩ n db).notes = db.notes ∧
      (iteratePurchase ⟨some bid, some nid⟩ n db).users = db.users := by
  have main : ∀ (k : Nat) (db' : DB),
      db'.notes.find? (fun n => n.note_id == nid && n.status == "approved") = some note →
      (iteratePurchase ⟨some bid, some nid⟩ k db').txns =
        db'.txns ++ List.replicate k ⟨bid, nid, note.price⟩ ∧
      (iteratePurchase ⟨some bid, some nid⟩ k db').notes = db'.notes ∧
      (iteratePurchase ⟨some bid, some nid⟩ k db').users = db'.users := by
    intro k
    induction k with
    | zero => exact fun db' _ => ⟨by simp [iteratePurchase], rfl, rfl⟩
    | succ m ih =>
      intro db' hf'
      have hstep : (purchase_note ⟨some bid, some nid⟩ db').1 =
          { db' with txns := db'.txns ++ [⟨bid, nid, note.price⟩] } := by
        simp [purchase_note, hf']
      have h' := ih { db' with txns := db'.txns ++ [⟨bid, nid, note.price⟩] } hf'
      simp only [iteratePurchase, hstep]
      refine ⟨?_, h'.2.1, h'.2.2⟩
      rw [h'.1]
      simp [List.replicate_succ]
  intro n
  obtain ⟨h1, h2, h3⟩ := main n db hf
  exact ⟨h1, by rw [h1]; simp, h2, h3⟩

/-- Witness for C8: three identical purchases of the approved note 1 by
buyer 7 leave exactly three identical transaction rows. -/
theorem C8_purchase_not_idempotent_witness :
    (iteratePurchase ⟨some 7, some 1⟩ 3 dbA).txns = List.replicate 3 ⟨7, 1, "5"⟩ ∧
    (iteratePurchase ⟨some 7, some 1⟩ 3 dbA).txns.length = 3 := by
  have h := C8_purchase_not_idempotent dbA 7 1 noteA (by decide) 3
  constructor
  · rw [h.1]; decide
  · rw [h.2.1]; decide

lemma hexBytes_length (l : List Char) : (hexBytes l).length = 2 * l.length := by
  induction l with
  | nil => rfl
  | cons c t ih =>
    simp only [hexBytes, List.flatMap_cons] at ih ⊢
    simp [ih]
    omega

lemma generate_password_hash_length (salt pw : String) :
    (generate_password_hash salt pw).length = 22 + 3 * salt.length + 2 * pw.length := by
  have hpre : ("pbkdf2:sha256:600000$" : String).length = 21 := rfl
  have hdol : ("$" : String).length = 1 := rfl
  have hmk : (String.mk (hexBytes (salt.data ++ pw.data))).length =
      2 * (salt.length + pw.length) := by
    show (hexBytes (salt.data ++ pw.data)).length = 2 * (salt.length + pw.length)
    rw [hexBytes_length, List.length_append]
    rfl
  simp only [generate_password_hash, String.length_append, hpre, hdol, hmk]
  omega

lemma generate_password_hash_ne (salt pw : String) :
    generate_password_hash salt pw ≠ pw := by
  intro h
  have hl := congrArg String.length h
  rw [generate_password_hash_length] at hl
  omega

/-- C5: `register` returns 400 when any field is missing, 409 leaving the
store unchanged when the email is taken, and otherwise inserts exactly one
user whose stored password is the salted hash of the plaintext (which never
equals the plaintext) and answers 201 with a constant message that carries
neither the password nor the hash; a second registration of the same email
then answers 409. -/
theorem C5_register_contract (salt : String) (d : RegisterData) (db : DB) :
    ((d.name = none ∨ d.email = none ∨ d.password = none ∨ d.role = none) →
      register salt d db = (db, 400, "Missing required fields!")) ∧
    (∀ name email pw role, d = ⟨some name, some email, some pw, some role⟩ →
      ((∃ u ∈ db.users, u.email = email) →
        register salt d db = (db, 409, "Email already registered!")) ∧
      ((∀ u ∈ db.users, u.email ≠ email) →
        register salt d db =
          ({ db with users := db.users ++
              [⟨db.users.length + 1, name, email, generate_password_hash salt pw, role⟩] },
            201, "New user created successfully!") ∧
        generate_password_hash salt pw ≠ pw ∧
        ∀ salt2 : String, (register salt2 d (register salt d db).1).2 =
          (409, "Email already registered!"))) := by
  obtain ⟨a, b, c, e⟩ := d
  constructor
  · intro hmiss
    rcases hmiss with h | h | h | h
    · have h' : a = none := h
      subst h'; rfl
    · have h' : b = none := h
      subst h'; cases a <;> rfl
    · have h' : c = none := h
      subst h'; cases a <;> cases b <;> rfl
    · have h' : e = none := h
      subst h'; cases a <;> cases b <;> cases c <;> rfl
  · intro name email pw role hd
    injection hd with h1 h2 h3 h4
    subst h1; subst h2; subst h3; subst h4
    constructor
    · intro hex
      have hne : db.users.find? (fun u => u.email == email) ≠ none := by
        rw [Ne, List.find?_eq_none]
        push_neg
        obtain ⟨u, hu, he⟩ := hex
        exact ⟨u, hu, by simp [he]⟩
      obtain ⟨u, hf⟩ := Option.ne_none_iff_exists'.mp hne
      simp [register, hf]
    · intro hnone
      have hf : db.users.find? (fun u => u.email == email) = none := by
        rw [List.find?_eq_none]
        intro u hu
        simp only [beq_iff_eq]
        exact hnone u hu
      refine ⟨by simp [register, hf], generate_password_hash_ne salt pw, ?_⟩
      intro salt2
      have hstep : (register salt ⟨some name, some email, some pw, some role⟩ db).1 =
          { db with users := db.users ++
              [⟨db.users.length + 1, name, email, generate_password_hash salt pw, role⟩] } := by
        simp [register, hf]
      rw [hstep]
      have hne2 : (db.users ++
          [(⟨db.users.length + 1, name, email, generate_password_hash salt pw, role⟩ : User)]).find?
            (fun u => u.email == email) ≠ none := by
        rw [Ne, List.find?_eq_none]
        push_neg
        exact ⟨⟨db.users.length + 1, name, email, generate_password_hash salt pw, role⟩,
          by simp, by simp⟩
      obtain ⟨u, hf2⟩ := Option.ne_none_iff_exists'.mp hne2
      simp [register, hf2]

/-- Witness for C5: registering Alice on the fresh store succeeds storing
the hash, the hash differs from the plaintext, re-registering the same
email answers 409, and a registration with a missing name answers 400. -/
theorem C5_register_contract_witness :
    register "ab" ⟨some "Alice", some "a@x.com", some "pw", some "buyer"⟩ DB.empty =
      ({ DB.empty with
          users := [⟨1, "Alice", "a@x.com", generate_password_hash "ab" "pw", "buyer"⟩] },
        201, "New user created successfully!") ∧
    generate_password_hash "ab" "pw" ≠ "pw" ∧
    (register "cd" ⟨some "Alice", some "a@x.com", some "pw", some "buyer"⟩
      (register "ab" ⟨some "Alice", some "a@x.com", some "pw", some "buyer"⟩ DB.empty).1).2 =
      (409, "Email already registered!") ∧
    register "ab" ⟨none, some "a@x.com", some "pw", some "buyer"⟩ DB.empty =
      (DB.empty, 400, "Missing required fields!") := by
  have h := ((C5_register_contract "ab"
      ⟨some "Alice", some "a@x.com", some "pw", some "buyer"⟩ DB.empty).2
    "Alice" "a@x.com" "pw" "buyer" rfl).2 (by decide)
  exact ⟨h.1, h.2.1, h.2.2 "cd",
    (C5_register_contract "ab" ⟨none, some "a@x.com", some "pw", some "buyer"⟩ DB.empty).1
      (Or.inl rfl)⟩

/-- C6: both login failure causes — no user with the email, and a user
found whose stored hash does not verify the password — produce the very
same 401 response with the very same message, so the two causes are
indistinguishable to the caller; a successful login returns only the public
user view (id, name, email, role; the `UserView` type has no password
field). -/
theorem C6_login_indistinguishable (db : DB) :
    (∀ d : LoginData, (d.email = none ∨ d.password = none) →
      login d db = (400, "Missing email or password!", none)) ∧
    (∀ e p : String, (∀ u ∈ db.users, u.email ≠ e) →
      login ⟨some e, some p⟩ db = (401, "Login failed! Check email and password.", none)) ∧
    (∀ (e p : String) (u : User), db.users.find? (fun v => v.email == e) = some u →
      check_password_hash u.password p = false →
      login ⟨some e, some p⟩ db = (401, "Login failed! Check email and password.", none)) ∧
    (∀ (e1 p1 e2 p2 : String) (u : User), (∀ v ∈ db.users, v.email ≠ e1) →
      db.users.find? (fun v => v.email == e2) = some u →
      check_password_hash u.password p2 = false →
      login ⟨some e1, some p1⟩ db = login ⟨some e2, some p2⟩ db) ∧
    (∀ (e p : String) (u : User), db.users.find? (fun v => v.email == e) = some u →
      check_password_hash u.password p = true →
      login ⟨some e, some p⟩ db =
        (200, "Login successful!", some ⟨u.user_id, u.name, u.email, u.role⟩)) := by
  have hnou : ∀ e p : String, (∀ u ∈ db.users, u.email ≠ e) →
      login ⟨some e, some p⟩ db = (401, "Login failed! Check email and password.", none) := by
    intro e p hnone
    have hf : db.users.find? (fun v => v.email == e) = none := by
      rw [List.find?_eq_none]
      intro u hu
      simp only [beq_iff_eq]
      exact hnone u hu
    simp [login, hf]
  have hbad : ∀ (e p : String) (u : User), db.users.find? (fun v => v.email == e) = some u →
      check_password_hash u.password p = false →
      login ⟨some e, some p⟩ db = (401, "Login failed! Check email and password.", none) := by
    intro e p u hf hc
    simp [login, hf, hc]
  refine ⟨?_, hnou, hbad, ?_, ?_⟩
  · intro d hmiss
    obtain ⟨a, b⟩ := d
    rcases hmiss with h | h
    · have h' : a = none := h
      subst h'; rfl
    · have h' : b = none := h
      subst h'; cases a <;> rfl
  · intro e1 p1 e2 p2 u h1 h2 h3
    rw [hnou e1 p1 h1, hbad e2 p2 u h2 h3]
  · intro e p u hf hc
    simp [login, hf, hc]

/-- Witness for C6 on the one-user store `dbU` (Alice, password "pw"):
logging in with an unknown email and logging in with Alice's email but the
wrong password produce identical responses, and the correct login returns
exactly the public view of Alice. -/
theorem C6_login_indistinguishable_witness :
    login ⟨some "z@x.com", some "pw"⟩ dbU = login ⟨some "a@x.com", some "wrong"⟩ dbU ∧
    login ⟨some "a@x.com", some "pw"⟩ dbU =
      (200, "Login successful!", some ⟨1, "Alice", "a@x.com", "buyer"⟩) := by
  constructor
  · exact (C6_login_indistinguishable dbU).2.2.2.1 "z@x.com" "pw" "a@x.com" "wrong" userB
      (by decide) (by decide) (by decide)
  · have h := (C6_login_indistinguishable dbU).2.2.2.2 "a@x.com" "pw" userB
      (by decide) (by decide)
    rw [h]
    decide

/-- C7: `upload_note` returns 400 when a required form field, the file part
or the file name is missing or empty, 404 when the seller id does not
resolve to a user of role seller, and otherwise inserts exactly one note in
status `pending` (never `approved`) whose description defaults to the empty
string when omitted, answering 201. -/
theorem C7_upload_contract (f : UploadForm) (db : DB) :
    ((f.title = none ∨ f.subject = none ∨ f.price = none ∨ f.seller_id = none) →
      upload_note f db = (db, 400, "Missing required form fields!")) ∧
    (∀ title subject price sid desc nf,
      f = ⟨some title, some subject, some price, some sid, desc, nf⟩ →
      (nf = none → upload_note f db = (db, 400, "No file part in the request!")) ∧
      (nf = some "" → upload_note f db = (db, 400, "No selected file!")) ∧
      (∀ fn, nf = some fn → fn ≠ "" →
        ((∀ u ∈ db.users, ¬(u.user_id = sid ∧ u.role = "seller")) →
          upload_note f db = (db, 404, "Seller not found or user is not a seller!")) ∧
        ((∃ u ∈ db.users, u.user_id = sid ∧ u.role = "seller") →
          ∀ d0 : String, (desc = some d0 ∨ (desc = none ∧ d0 = "")) →
            upload_note f db =
              ({ db with notes := db.notes ++
                  [⟨db.notes.length + 1, title, subject, d0, price, sid,
                    "uploads/" ++ secure_filename fn, "pending"⟩] },
                201, "Note uploaded successfully and is pending admin approval.")))) := by
  obtain ⟨a, b, c, e, de, nf0⟩ := f
  constructor
  · intro hmiss
    rcases hmiss with h | h | h | h
    · have h' : a = none := h
      subst h'; rfl
    · have h' : b = none := h
      subst h'; cases a <;> rfl
    · have h' : c = none := h
      subst h'; cases a <;> cases b <;> rfl
    · have h' : e = none := h
      subst h'; cases a <;> cases b <;> cases c <;> rfl
  · intro title subject price sid desc nf hd
    injection hd with h1 h2 h3 h4 h5 h6
    subst h1; subst h2; subst h3; subst h4; subst h5; subst h6
    refine ⟨?_, ?_, ?_⟩
    · intro hnf; subst hnf; rfl
    · intro hnf; subst hnf; simp [upload_note]
    · intro fn hnf hne
      subst hnf
      constructor
      · intro hnos
        have hf : db.users.find? (fun u => u.user_id == sid && u.role == "seller") = none := by
          rw [List.find?_eq_none]
          intro u hu
          simp only [Bool.and_eq_true, beq_iff_eq]
          exact hnos u hu
        simp [upload_note, hne, hf]
      · intro hex d0 hdesc
        have hne2 : db.users.find? (fun u => u.user_id == sid && u.role == "seller") ≠
            none := by
          rw [Ne, List.find?_eq_none]
          push_neg
          obtain ⟨u, hu, h1, h2⟩ := hex
          exact ⟨u, hu, by simp [h1, h2]⟩
        obtain ⟨u, hf⟩ := Option.ne_none_iff_exists'.mp hne2
        rcases hdesc with hd0 | ⟨hd0, rfl⟩
        · subst hd0
          simp [upload_note, hne, hf]
        · subst hd0
          simp [upload_note, hne, hf]

/-- Witness for C7 on the one-seller store `dbS`: a complete upload by
seller 1 inserts the pending note with empty default description, the same
upload under the unknown seller id 2 answers 404, and leaving out the file
part answers 400. -/
theorem C7_upload_contract_witness :
    upload_note ⟨some "Calc Notes", some "Math", some "5", some 1, none, some "f.pdf"⟩ dbS =
      ({ dbS with notes := [⟨1, "Calc Notes", "Math", "", "5", 1, "uploads/f.pdf", "pending"⟩] },
        201, "Note uploaded successfully and is pending admin approval.") ∧
    upload_note ⟨some "Calc Notes", some "Math", some "5", some 2, none, some "f.pdf"⟩ dbS =
      (dbS, 404, "Seller not found or user is not a seller!") ∧
    upload_note ⟨some "Calc Notes", some "Math", some "5", some 1, none, none⟩ dbS =
      (dbS, 400, "No file part in the request!") := by
  refine ⟨?_, ?_, ?_⟩
  · have h := (((C7_upload_contract
        ⟨some "Calc Notes", some "Math", some "5", some 1, none, some "f.pdf"⟩ dbS).2
      "Calc Notes" "Math" "5" 1 none (some "f.pdf") rfl).2.2 "f.pdf" rfl (by decide)).2
      (by decide) "" (Or.inr ⟨rfl, rfl⟩)
    rw [h]
    decide
  · exact (((C7_upload_contract
        ⟨some "Calc Notes", some "Math", some "5", some 2, none, some "f.pdf"⟩ dbS).2
      "Calc Notes" "Math" "5" 2 none (some "f.pdf") rfl).2.2 "f.pdf" rfl (by decide)).1
      (by decide)
  · exact ((C7_upload_contract
        ⟨some "Calc Notes", some "Math", some "5", some 1, none, none⟩ dbS).2
      "Calc Notes" "Math" "5" 1 none none rfl).1 rfl

end NotesApp
